import Mathlib

/-!
Verification of the client-side storefront script (`assets/js/main.js`).

The development shallowly embeds the parts of the program the claims are
about:

* `CartManager` — the shopping-cart state (`addProduct`, `removeProduct`,
  `updateQuantity`, `saveCart`, construction from persisted storage, and
  the UI total recomputations from `updateCartUI`).  The in-memory cart is
  a `List CartItem`; JavaScript numbers that hold prices are modelled as
  rationals (`ℚ`), identifiers and quantities as integers (`Int`), which
  matches every value the program ever stores in those fields exactly.
* A small JSON value type `Json`.  A string held in `localStorage` is
  represented by its parse behaviour (`StoredVal`): either the key is
  absent, or the string does not parse (on which `JSON.parse` throws), or
  it parses to a `Json` value.  `JSON.stringify` followed by `JSON.parse`
  is the identity on this representation, which is the defining property
  of the pair used here.
* `ComponentLoader` — fragment loading for `loadComponent` /
  `showComponentFallback` (the document is the finite map from element id
  to inner content) and the head-loading path `loadHead` /
  `loadDefaultHead` (the document head is a list of head elements).
* `PathFixer` — the per-link and per-resource rewriting functions and the
  `file:` protocol gate.  JavaScript string primitives (`startsWith`,
  `substring`, concatenation) are modelled on the character list of the
  Lean string.
-/

/-! ## Cart data model -/

/-- One line item of the cart: the fields of the spread product object that
the cart logic and the UI read (`id`, `name`, `price`, `quantity`). -/
structure CartItem where
  id : Int
  name : String
  price : ℚ
  quantity : Int
deriving Repr, DecidableEq

/-- A product as passed to `CartManager.addProduct`.  The `quantity` field
is optional: `none` models a product object with no `quantity` property
(`product.quantity` is `undefined`, hence falsy). -/
structure Product where
  id : Int
  name : String
  price : ℚ
  quantity : Option Int
deriving Repr, DecidableEq

namespace CartManager

/-- `product.quantity || 1`: an absent (`undefined`) or zero (falsy)
quantity field counts as 1; any other number is used as is. -/
def addQty (q : Option Int) : Int :=
  match q with
  | none => 1
  | some n => if n = 0 then 1 else n

/-- `addProduct` (main.js 315-330): `find` the first line item with the
product's id and increment its quantity by `product.quantity || 1`;
otherwise `push` a copy of the product with that quantity. -/
def addProduct : List CartItem → Product → List CartItem
  | [], p => [{ id := p.id, name := p.name, price := p.price, quantity := addQty p.quantity }]
  | it :: rest, p =>
    if it.id == p.id then
      { it with quantity := it.quantity + addQty p.quantity } :: rest
    else
      it :: addProduct rest p

/-- `removeProduct` (main.js 335-339): `this.cart.filter(item => item.id !== productId)`. -/
def removeProduct (cart : List CartItem) (productId : Int) : List CartItem :=
  cart.filter (fun item => !(item.id == productId))

/-- Assign `item.quantity = quantity` on the first line item `find` returns
(the mutation in `updateQuantity` acts on that one object). -/
def setQtyFirst : List CartItem → Int → Int → List CartItem
  | [], _, _ => []
  | it :: rest, productId, quantity =>
    if it.id == productId then { it with quantity := quantity } :: rest
    else it :: setQtyFirst rest productId quantity

/-- `updateQuantity` (main.js 344-355): if a line item with the id exists,
set its quantity; a resulting quantity `<= 0` triggers `removeProduct`
(which filters by id, so setting-then-filtering equals filtering).
If no line item matches, nothing happens. -/
def updateQuantity (cart : List CartItem) (productId : Int) (quantity : Int) : List CartItem :=
  match cart.find? (fun item => item.id == productId) with
  | none => cart
  | some _ =>
    if quantity ≤ 0 then removeProduct cart productId
    else setQtyFirst cart productId quantity

/-- `updateCartUI` badge count (main.js 373):
`this.cart.reduce((sum, item) => sum + item.quantity, 0)`. -/
def totalItems (cart : List CartItem) : Int :=
  cart.foldl (fun sum item => sum + item.quantity) 0

/-- `updateCartUI` displayed total (main.js 379):
`this.cart.reduce((sum, item) => sum + (item.price * item.quantity), 0)`. -/
def totalPrice (cart : List CartItem) : ℚ :=
  cart.foldl (fun sum item => sum + item.price * item.quantity) 0

end CartManager

/-! ## JSON and persistent storage -/

/-- JSON values, as produced by `JSON.parse`. -/
inductive Json where
  | null
  | bool (b : Bool)
  | num (q : ℚ)
  | str (s : String)
  | arr (elems : List Json)
  | obj (fields : List (String × Json))
deriving Repr

/-- JavaScript truthiness of a parsed JSON value: `null`, `false`, `0` and
`""` are falsy; every array or object is truthy. -/
def jsTruthy : Json → Bool
  | .null => false
  | .bool b => b
  | .num q => !(q == 0)
  | .str s => !(s == "")
  | .arr _ => true
  | .obj _ => true

/-- What `localStorage.getItem('sportpro-cart')` hands to `JSON.parse`,
represented by its parse behaviour: the key is absent (`getItem` returns
`null`, which `JSON.parse` coerces to the string "null" and parses to the
JSON null value), or the stored string is unparseable (`JSON.parse`
throws), or it parses to a JSON value. -/
inductive StoredVal where
  | absent
  | corrupt
  | parsed (j : Json)

/-- JSON encoding of one cart item, the object `JSON.stringify` writes for
the spread product (restricted to the fields the cart logic reads). -/
def encodeItem (it : CartItem) : Json :=
  .obj [("id", .num (it.id : ℚ)), ("name", .str it.name),
        ("price", .num it.price), ("quantity", .num (it.quantity : ℚ))]

/-- JSON encoding of the whole cart array. -/
def encodeCart (cart : List CartItem) : Json :=
  .arr (cart.map encodeItem)

/-- Interpretation of a JSON object as a cart item (the identity on the
objects `encodeItem` produces); used to state that a reconstructed cart
holds the same line items. -/
def decodeItem : Json → Option CartItem
  | .obj [("id", .num i), ("name", .str n), ("price", .num p), ("quantity", .num q)] =>
    if i.den = 1 ∧ q.den = 1 then
      some { id := i.num, name := n, price := p, quantity := q.num }
    else none
  | _ => none

/-- Interpretation of a list of JSON values as cart items. -/
def decodeItems : List Json → Option (List CartItem)
  | [] => some []
  | j :: rest =>
    match decodeItem j, decodeItems rest with
    | some it, some its => some (it :: its)
    | _, _ => none

/-- Interpretation of a JSON value as a cart. -/
def decodeCart : Json → Option (List CartItem)
  | .arr elems => decodeItems elems
  | _ => none

namespace CartManager

/-- `saveCart` (main.js 360-362): the value left under the fixed key
`'sportpro-cart'` is `JSON.stringify(this.cart)`, a string that parses
back to the cart's JSON encoding. -/
def saveCart (cart : List CartItem) : StoredVal :=
  .parsed (encodeCart cart)

/-- The constructor (main.js 307-310):
`this.cart = JSON.parse(localStorage.getItem('sportpro-cart')) || []`.
There is no `try`/`catch`: when `JSON.parse` throws, the exception
propagates out of the constructor (`Except.error`).  Otherwise the cart is
the parsed value, or a fresh empty array when the parsed value is falsy. -/
def construct : StoredVal → Except Unit Json
  | .absent => .ok (encodeCart [])
  | .corrupt => .error ()
  | .parsed j => .ok (if jsTruthy j then j else encodeCart [])

end CartManager

/-! ## Fragment loading -/

namespace ComponentLoader

/-- The live document, as the fragment loader touches it: the elements
reachable by `document.getElementById`, as pairs of element id and inner
content.  Splicing `outerHTML` removes the identified element (the ids the
fetched markup may introduce are not tracked; no claim depends on them). -/
structure Doc where
  elems : List (String × String)
deriving Repr, DecidableEq

/-- `document.getElementById(targetId)`, returning the element's inner
content when the element exists. -/
def getElementById (d : Doc) (targetId : String) : Option String :=
  (d.elems.find? (fun e => e.1 == targetId)).map (fun e => e.2)

/-- `target.innerHTML = html`: replace the inner content of the identified
element, leaving every other element alone. -/
def setInnerHTML (d : Doc) (targetId : String) (html : String) : Doc :=
  ⟨d.elems.map (fun e => if e.1 == targetId then (e.1, html) else e)⟩

/-- `targetElement.outerHTML = html`: the element itself is replaced by the
fetched markup, so its id no longer resolves. -/
def setOuterHTML (d : Doc) (targetId : String) : Doc :=
  ⟨d.elems.filter (fun e => !(e.1 == targetId))⟩

/-- Outcome of `fetch` + `response.ok` + `response.text()` for one fragment
resource: a successful response with its body, a response with a
non-success HTTP status (`response.ok` false, on which the code throws),
or a rejected fetch. -/
inductive FetchResult where
  | success (html : String)
  | httpError (status : Nat)
  | networkError
deriving Repr, DecidableEq

/-- The load failures that reach the `catch` block of `loadComponent`:
a rejected fetch or a non-success HTTP status. -/
def FetchResult.isFailure : FetchResult → Bool
  | .success _ => false
  | .httpError _ => true
  | .networkError => true

/-- The console messages `loadComponent` can surface. -/
inductive LogMsg where
  | loaded
  | missingTargetWarning
  | loadErrorLogged
deriving Repr, DecidableEq

/-- The static fallback header markup of `showComponentFallback`
(main.js 143-152). -/
def headerFallbackHtml : String :=
  "<header class=\"fallback-header\" style=\"background: #1e40af; color: white; padding: 1rem;\">\n<div style=\"max-width: 1200px; margin: 0 auto; display: flex; justify-content: space-between; align-items: center;\">\n<h1 style=\"margin: 0;\">SPORTPRO</h1>\n<nav>\n<a href=\"index.html\" style=\"color: white; margin-left: 1rem;\">Inicio</a>\n<a href=\"pages/productos.html\" style=\"color: white; margin-left: 1rem;\">Productos</a>\n<a href=\"pages/ofertas.html\" style=\"color: white; margin-left: 1rem;\">Ofertas</a>\n</nav>\n</div>\n</header>"

/-- The static fallback footer markup of `showComponentFallback`
(main.js 153-156). -/
def footerFallbackHtml : String :=
  "<footer class=\"fallback-footer\" style=\"background: #333; color: white; padding: 2rem; text-align: center;\">\n<p>&copy; 2024 SportPro Store - Tienda de art\u00edculos deportivos</p>\n<p style=\"font-size: 0.9rem; color: #aaa;\">Cargando contenido completo...</p>\n</footer>"

/-- The static fallback markup table of `showComponentFallback`
(main.js 142-157): entries exist exactly for `header` and `footer`. -/
def fallbacks (componentName : String) : Option String :=
  if componentName == "header" then some headerFallbackHtml
  else if componentName == "footer" then some footerFallbackHtml
  else none

/-- `showComponentFallback` (main.js 141-163): write the fallback markup
into the target's inner content, but only when the target element exists
and the table has an entry for the component name. -/
def showComponentFallback (d : Doc) (componentName targetId : String) : Doc :=
  match getElementById d targetId, fallbacks componentName with
  | some _, some fb => setInnerHTML d targetId fb
  | _, _ => d

/-- `loadComponent` (main.js 98-122).  A non-success status throws inside
the `try`, so it lands in the same `catch` as a rejected fetch; the catch
logs the error and calls `showComponentFallback`.  A successful response
splices the markup over the target (`outerHTML`), or only warns when the
target element is missing. -/
def loadComponent (d : Doc) (componentName targetId : String) (fetch : FetchResult) :
    Doc × LogMsg :=
  match fetch with
  | .success _ =>
    match getElementById d targetId with
    | some _ => (setOuterHTML d targetId, .loaded)
    | none => (d, .missingTargetWarning)
  | _ => (showComponentFallback d componentName targetId, .loadErrorLogged)

/-- Elements that can live in the document head. -/
inductive HeadElem where
  | metaCharset (charset : String)
  | metaNamed (name content : String)
  | title (text : String)
  | linkStylesheet (href : String)
  | styleInline (css : String)
deriving Repr, DecidableEq

/-- Is this element a `<title>`? -/
def HeadElem.isTitle : HeadElem → Bool
  | .title _ => true
  | _ => false

/-- Is this element a `<meta name="viewport">`? -/
def HeadElem.isViewportMeta : HeadElem → Bool
  | .metaNamed n _ => n == "viewport"
  | _ => false

/-- The parsed elements of the fixed `defaultHead` template of
`loadDefaultHead` (main.js 74-84): charset meta, viewport meta, title,
description meta, base stylesheet link and the inline fallback style. -/
def defaultHeadElems : List HeadElem :=
  [ .metaCharset "UTF-8",
    .metaNamed "viewport" "width=device-width, initial-scale=1.0",
    .title "SportPro | Tienda Deportiva Online",
    .metaNamed "description" "Tienda online de artículos deportivos profesionales",
    .linkStylesheet "assets/css/main.css",
    .styleInline "body \x7b font-family: Arial, sans-serif; margin: 0; padding: 0; \x7d .fallback-message \x7b padding: 20px; background: #f0f0f0; text-align: center; \x7d" ]

/-- `loadDefaultHead` (main.js 73-93): append each element of the parsed
default template to the live document head. -/
def loadDefaultHead (head : List HeadElem) : List HeadElem :=
  head ++ defaultHeadElems

/-- Outcome of fetching and parsing the head fragment: the list of parsed
head elements, or any fetch/parse failure. -/
inductive HeadFetch where
  | success (elems : List HeadElem)
  | failure

/-- `loadHead` (main.js 43-68): on success append the fragment's parsed
elements to the head; any error lands in the `catch`, which calls
`loadDefaultHead`. -/
def loadHead (head : List HeadElem) : HeadFetch → List HeadElem
  | .success elems => head ++ elems
  | .failure => loadDefaultHead head

end ComponentLoader

/-! ## PathFixer -/

namespace PathFixer

/-- JavaScript `s.startsWith(p)`, on the character sequence of the string. -/
def jsStartsWith (s p : String) : Bool :=
  p.data.isPrefixOf s.data

/-- JavaScript `s.substring(n)`: the characters of `s` from index `n` on. -/
def jsSubstring (s : String) (n : Nat) : String :=
  ⟨s.data.drop n⟩

/-- The per-hyperlink rewrite of `fixFileProtocolPaths` (main.js 765-804):
external, fragment-only, `mailto:` and `tel:` links are returned as they
are; `/` and `/pages/...` links are turned into relative ones by the rule
for the current directory level (`isInPages`); `./` and `./index.html`
are rewritten only from inside `pages/`; every other link keeps its
original `href`. -/
def fixHref (isInPages : Bool) (originalHref : String) : String :=
  if jsStartsWith originalHref "http" || jsStartsWith originalHref "#" ||
      jsStartsWith originalHref "mailto:" || jsStartsWith originalHref "tel:" then
    originalHref
  else if jsStartsWith originalHref "/" then
    if originalHref == "/" then
      if isInPages then "../index.html" else "index.html"
    else if jsStartsWith originalHref "/pages/" then
      if isInPages then jsSubstring originalHref 6
      else "pages" ++ jsSubstring originalHref 5
    else originalHref
  else if jsStartsWith originalHref "./" && isInPages then
    if originalHref == "./" then "../index.html"
    else if originalHref == "./index.html" then "../index.html"
    else originalHref
  else originalHref

/-- The per-resource rewrite of `fixFileProtocolPaths` (main.js 807-817)
for `link[href]` and `script[src]`: a root-relative URL is prefixed with
`..` from inside `pages/` and with `.` at the site root; everything else
is untouched. -/
def fixResourceUrl (isInPages : Bool) (originalUrl : String) : String :=
  if jsStartsWith originalUrl "/" then
    (if isInPages then ".." else ".") ++ originalUrl
  else originalUrl

/-- `fixFileProtocolPaths` over the document's links and resources: every
`href` of an `<a>` and every resource URL is rewritten in place. -/
def fixFileProtocolPaths (isInPages : Bool) (links resources : List String) :
    List String × List String :=
  (links.map (fixHref isInPages), resources.map (fixResourceUrl isInPages))

/-- `PathFixer.init` (main.js 750-755): the rewriting runs only when
`window.location.protocol` is `file:`; under any other protocol the
document is left untouched. -/
def run (protocol : String) (isInPages : Bool) (links resources : List String) :
    List String × List String :=
  if protocol == "file:" then fixFileProtocolPaths isInPages links resources
  else (links, resources)

end PathFixer

/-! ## Helper lemmas about the cart operations -/

namespace CartManager

lemma foldl_add_eq {M : Type} [AddCommMonoid M] (f : CartItem → M) (l : List CartItem)
    (a : M) : l.foldl (fun s it => s + f it) a = a + (l.map f).sum := by
  induction l generalizing a with
  | nil => simp
  | cons it rest ih => simp [ih, add_assoc]

lemma totalItems_eq_sum (l : List CartItem) :
    totalItems l = (l.map (fun it => it.quantity)).sum := by
  simpa using foldl_add_eq (fun it => it.quantity) l 0

lemma totalPrice_eq_sum (l : List CartItem) :
    totalPrice l = (l.map (fun it => it.price * (it.quantity : ℚ))).sum := by
  simpa using foldl_add_eq (fun it => it.price * (it.quantity : ℚ)) l 0

lemma totalItems_cons (it : CartItem) (l : List CartItem) :
    totalItems (it :: l) = it.quantity + totalItems l := by
  simp [totalItems_eq_sum]

lemma totalPrice_cons (it : CartItem) (l : List CartItem) :
    totalPrice (it :: l) = it.price * (it.quantity : ℚ) + totalPrice l := by
  simp [totalPrice_eq_sum]

lemma addProduct_of_found (cart : List CartItem) (p : Product) (old : CartItem)
    (hf : cart.find? (fun it => it.id == p.id) = some old)
    (hc : cart.countP (fun it => it.id == p.id) = 1) :
    (addProduct cart p).countP (fun it => it.id == p.id) = 1 ∧
    (addProduct cart p).find? (fun it => it.id == p.id) =
      some { old with quantity := old.quantity + addQty p.quantity } := by
  induction cart with
  | nil => simp at hf
  | cons it rest ih =>
    by_cases hid : (it.id == p.id) = true
    · simp only [List.find?_cons, hid] at hf
      obtain rfl : it = old := by injection hf
      simp only [List.countP_cons, hid, if_true] at hc
      have hrest : rest.countP (fun it => it.id == p.id) = 0 := by omega
      simp [addProduct, hid, List.find?_cons, List.countP_cons, hrest]
    · have hid' : (it.id == p.id) = false := by simpa using hid
      simp only [List.find?_cons, hid'] at hf
      simp only [List.countP_cons, hid', if_false, add_zero] at hc
      have := ih hf hc
      simp [addProduct, hid', List.find?_cons, List.countP_cons, this.1, this.2]

lemma addProduct_of_not_found (cart : List CartItem) (p : Product)
    (hc : cart.countP (fun it => it.id == p.id) = 0) :
    addProduct cart p =
      cart ++ [{ id := p.id, name := p.name, price := p.price, quantity := addQty p.quantity }] := by
  induction cart with
  | nil => rfl
  | cons it rest ih =>
    by_cases hid : (it.id == p.id) = true
    · simp [List.countP_cons, hid] at hc
    · have hid' : (it.id == p.id) = false := by simpa using hid
      simp only [List.countP_cons, hid', if_false, add_zero] at hc
      simp [addProduct, hid', ih hc]

lemma removeProduct_of_absent (cart : List CartItem) (productId : Int)
    (h : ∀ it ∈ cart, ¬(it.id = productId)) : removeProduct cart productId = cart := by
  apply List.filter_eq_self.mpr
  intro a ha
  simpa using h a ha

lemma totals_removeProduct (cart : List CartItem) (productId : Int) (old : CartItem)
    (hnd : (cart.map (fun it => it.id)).Nodup)
    (hf : cart.find? (fun it => it.id == productId) = some old) :
    totalItems (removeProduct cart productId) = totalItems cart - old.quantity ∧
    totalPrice (removeProduct cart productId) = totalPrice cart - old.price * (old.quantity : ℚ) := by
  induction cart with
  | nil => simp at hf
  | cons it rest ih =>
    rw [List.map_cons, List.nodup_cons] at hnd
    by_cases hid : (it.id == productId) = true
    · simp only [List.find?_cons, hid] at hf
      replace hf : it = old := by injection hf
      subst hf
      have hpid : it.id = productId := by simpa using hid
      have hrest : removeProduct rest productId = rest := by
        apply removeProduct_of_absent
        intro x hx hxid
        exact hnd.1 (by simpa [hxid, hpid] using List.mem_map_of_mem (fun it => it.id) hx)
      have hhead : removeProduct (it :: rest) productId = removeProduct rest productId := by
        simp [removeProduct, List.filter_cons, hid]
      rw [hhead, hrest, totalItems_cons, totalPrice_cons]
      constructor <;> ring
    · have hid' : (it.id == productId) = false := by simpa using hid
      simp only [List.find?_cons, hid'] at hf
      have hhead : removeProduct (it :: rest) productId = it :: removeProduct rest productId := by
        simp [removeProduct, List.filter_cons, hid']
      have := ih hnd.2 hf
      rw [hhead, totalItems_cons, totalPrice_cons, totalItems_cons, totalPrice_cons,
        this.1, this.2]
      constructor <;> ring

lemma find?_setQtyFirst (cart : List CartItem) (productId quantity : Int) (old : CartItem)
    (hf : cart.find? (fun it => it.id == productId) = some old) :
    (setQtyFirst cart productId quantity).find? (fun it => it.id == productId) =
      some { old with quantity := quantity } := by
  induction cart with
  | nil => simp at hf
  | cons it rest ih =>
    by_cases hid : (it.id == productId) = true
    · simp only [List.find?_cons, hid] at hf
      obtain rfl : it = old := by injection hf
      simp [setQtyFirst, hid, List.find?_cons]
    · have hid' : (it.id == productId) = false := by simpa using hid
      simp only [List.find?_cons, hid'] at hf
      simp [setQtyFirst, hid', List.find?_cons, ih hf]

lemma setQtyFirst_map_id (cart : List CartItem) (productId quantity : Int) :
    (setQtyFirst cart productId quantity).map (fun it => it.id) =
      cart.map (fun it => it.id) := by
  induction cart with
  | nil => rfl
  | cons it rest ih =>
    by_cases hid : (it.id == productId) = true
    · simp [setQtyFirst, hid]
    · have hid' : (it.id == productId) = false := by simpa using hid
      simp [setQtyFirst, hid', ih]

lemma mem_setQtyFirst (cart : List CartItem) (productId quantity : Int) (x : CartItem) :
    x ∈ setQtyFirst cart productId quantity →
      x ∈ cart ∨ ∃ it ∈ cart, x = { it with quantity := quantity } := by
  induction cart with
  | nil => intro h; simp [setQtyFirst] at h
  | cons it rest ih =>
    intro h
    by_cases hid : (it.id == productId) = true
    · simp only [setQtyFirst, hid, if_true, List.mem_cons] at h
      rcases h with h | h
      · exact Or.inr ⟨it, List.mem_cons_self it rest, h⟩
      · exact Or.inl (List.mem_cons_of_mem it h)
    · have hid' : (it.id == productId) = false := by simpa using hid
      simp only [setQtyFirst, hid', Bool.false_eq_true, if_false, List.mem_cons] at h
      rcases h with h | h
      · exact Or.inl (by simp [h])
      · rcases ih h with h' | ⟨y, hy, hxy⟩
        · exact Or.inl (List.mem_cons_of_mem it h')
        · exact Or.inr ⟨y, List.mem_cons_of_mem it hy, hxy⟩

lemma mem_map_id_addProduct (cart : List CartItem) (p : Product) (x : Int) :
    x ∈ (addProduct cart p).map (fun it => it.id) →
      x ∈ cart.map (fun it => it.id) ∨ x = p.id := by
  induction cart with
  | nil => intro h; simp [addProduct] at h; simp [h]
  | cons it rest ih =>
    intro h
    by_cases hid : (it.id == p.id) = true
    · simp only [addProduct, hid, if_true, List.map_cons, List.mem_cons] at h
      rcases h with h | h
      · exact Or.inl (by simp [h])
      · exact Or.inl (by simpa using Or.inr h)
    · have hid' : (it.id == p.id) = false := by simpa using hid
      simp only [addProduct, hid', Bool.false_eq_true, if_false, List.map_cons,
        List.mem_cons] at h
      rcases h with h | h
      · exact Or.inl (by simp [h])
      · rcases ih h with h' | h'
        · exact Or.inl (by simpa using Or.inr (by simpa using h'))
        · exact Or.inr h'

lemma mem_addProduct (cart : List CartItem) (p : Product) (x : CartItem) :
    x ∈ addProduct cart p →
      x ∈ cart ∨ (∃ it ∈ cart, x = { it with quantity := it.quantity + addQty p.quantity }) ∨
        x = { id := p.id, name := p.name, price := p.price, quantity := addQty p.quantity } := by
  induction cart with
  | nil => intro h; simp [addProduct] at h; simp [h]
  | cons it rest ih =>
    intro h
    by_cases hid : (it.id == p.id) = true
    · simp only [addProduct, hid, if_true, List.mem_cons] at h
      rcases h with h | h
      · exact Or.inr (Or.inl ⟨it, List.mem_cons_self it rest, h⟩)
      · exact Or.inl (List.mem_cons_of_mem it h)
    · have hid' : (it.id == p.id) = false := by simpa using hid
      simp only [addProduct, hid', Bool.false_eq_true, if_false, List.mem_cons] at h
      rcases h with h | h
      · exact Or.inl (by simp [h])
      · rcases ih h with h' | ⟨y, hy, hxy⟩ | h'
        · exact Or.inl (List.mem_cons_of_mem it h')
        · exact Or.inr (Or.inl ⟨y, List.mem_cons_of_mem it hy, hxy⟩)
        · exact Or.inr (Or.inr h')

end CartManager

/-! ## Cart invariant -/

namespace CartManager

/-- The cart invariant of the spec's data model: at most one line item per
identifier, and every quantity is at least 1. -/
def CartWF (cart : List CartItem) : Prop :=
  (cart.map (fun it => it.id)).Nodup ∧ ∀ it ∈ cart, 1 ≤ it.quantity

lemma one_le_addQty (q : Option Int) (h : ∀ n, q = some n → 0 ≤ n) : 1 ≤ addQty q := by
  match q with
  | none => simp [addQty]
  | some n =>
    have := h n rfl
    simp only [addQty]
    by_cases hn : n = 0
    · simp [hn]
    · simp only [hn, if_false]
      omega

lemma nodup_map_id_addProduct (cart : List CartItem) (p : Product)
    (hnd : (cart.map (fun it => it.id)).Nodup) :
    ((addProduct cart p).map (fun it => it.id)).Nodup := by
  induction cart with
  | nil => simp [addProduct]
  | cons it rest ih =>
    rw [List.map_cons, List.nodup_cons] at hnd
    by_cases hid : (it.id == p.id) = true
    · simp only [addProduct, hid, if_true, List.map_cons, List.nodup_cons]
      exact ⟨hnd.1, hnd.2⟩
    · have hid' : (it.id == p.id) = false := by simpa using hid
      simp only [addProduct, hid', Bool.false_eq_true, if_false, List.map_cons,
        List.nodup_cons]
      refine ⟨?_, ih hnd.2⟩
      intro hmem
      rcases mem_map_id_addProduct rest p it.id hmem with h' | h'
      · exact hnd.1 h'
      · simp [h'] at hid'

lemma one_le_quantity_addProduct (cart : List CartItem) (p : Product)
    (hqty : ∀ it ∈ cart, 1 ≤ it.quantity) (hq : 1 ≤ addQty p.quantity) :
    ∀ x ∈ addProduct cart p, 1 ≤ x.quantity := by
  intro x hx
  rcases mem_addProduct cart p x hx with h | ⟨y, hy, rfl⟩ | rfl
  · exact hqty x h
  · have := hqty y hy
    simp only
    omega
  · simpa using hq

lemma cartWF_addProduct (cart : List CartItem) (p : Product) (h : CartWF cart)
    (hq : 1 ≤ addQty p.quantity) : CartWF (addProduct cart p) :=
  ⟨nodup_map_id_addProduct cart p h.1, one_le_quantity_addProduct cart p h.2 hq⟩

lemma cartWF_removeProduct (cart : List CartItem) (productId : Int) (h : CartWF cart) :
    CartWF (removeProduct cart productId) := by
  refine ⟨h.1.sublist ((List.filter_sublist cart).map (fun it => it.id)), ?_⟩
  intro x hx
  exact h.2 x (List.mem_filter.mp hx).1

lemma cartWF_setQtyFirst (cart : List CartItem) (productId quantity : Int) (h : CartWF cart)
    (hq : 1 ≤ quantity) : CartWF (setQtyFirst cart productId quantity) := by
  refine ⟨?_, ?_⟩
  · rw [setQtyFirst_map_id]
    exact h.1
  · intro x hx
    rcases mem_setQtyFirst cart productId quantity x hx with h' | ⟨y, _, rfl⟩
    · exact h.2 x h'
    · simpa using hq

lemma cartWF_updateQuantity (cart : List CartItem) (productId quantity : Int)
    (h : CartWF cart) : CartWF (updateQuantity cart productId quantity) := by
  unfold updateQuantity
  cases hfind : cart.find? (fun item => item.id == productId) with
  | none => exact h
  | some old =>
    by_cases hq : quantity ≤ 0
    · simp only [hq, if_true]
      exact cartWF_removeProduct cart productId h
    · simp only [hq, if_false]
      exact cartWF_setQtyFirst cart productId quantity h (by omega)

end CartManager

/-! ## Claims C1-C6, C10: the Cart Store -/

/-- **C1.** The claim states that construction never throws when the stored
value under the fixed key is absent or corrupt, and yields an empty cart.
The code (`JSON.parse(localStorage.getItem('sportpro-cart')) || []`) only
survives the absent case: `getItem` returning `null` parses to the falsy
JSON null, so `|| []` yields an empty cart; but an unparseable stored
string makes `JSON.parse` throw, and with no `try`/`catch` in the
constructor the exception propagates.  This theorem evaluates the
constructor on both inputs. -/
theorem C1_construct_absent_ok_corrupt_throws :
    CartManager.construct .absent = .ok (encodeCart []) ∧
    decodeCart (encodeCart []) = some [] ∧
    CartManager.construct .corrupt = .error () :=
  ⟨rfl, rfl, rfl⟩

/-- **C2.** `addProduct` merges by identifier: when a (unique) line item
with the product's id exists, its quantity is incremented by the added
quantity and exactly one line item with that id remains; when none exists,
a new line item is appended.  Adding quantity 2 then quantity 3 of id 1 at
unit price 10 yields one line item of quantity 5 and total price 50. -/
theorem C2_addProduct_merges_by_id :
    (∀ (cart : List CartItem) (p : Product) (old : CartItem),
      cart.find? (fun it => it.id == p.id) = some old →
      cart.countP (fun it => it.id == p.id) = 1 →
      (CartManager.addProduct cart p).countP (fun it => it.id == p.id) = 1 ∧
      (CartManager.addProduct cart p).find? (fun it => it.id == p.id) =
        some { old with quantity := old.quantity + CartManager.addQty p.quantity }) ∧
    (∀ (cart : List CartItem) (p : Product),
      cart.countP (fun it => it.id == p.id) = 0 →
      CartManager.addProduct cart p =
        cart ++ [{ id := p.id, name := p.name, price := p.price,
                   quantity := CartManager.addQty p.quantity }]) ∧
    (CartManager.addProduct
        (CartManager.addProduct [] { id := 1, name := "X", price := 10, quantity := some 2 })
        { id := 1, name := "X", price := 10, quantity := some 3 } =
      [{ id := 1, name := "X", price := 10, quantity := 5 }] ∧
     CartManager.totalPrice [{ id := 1, name := "X", price := 10, quantity := 5 }] = 50) := by
  refine ⟨CartManager.addProduct_of_found, CartManager.addProduct_of_not_found, by decide, ?_⟩
  rw [CartManager.totalPrice_cons, show CartManager.totalPrice [] = 0 from rfl]
  norm_num

/-- Witness for C2 at concrete inputs. -/
theorem C2_witness :
    (CartManager.addProduct [{ id := 1, name := "X", price := 10, quantity := 2 }]
        { id := 1, name := "X", price := 10, quantity := some 3 }).countP
      (fun it => it.id == (1 : Int)) = 1 ∧
    CartManager.addProduct [{ id := 2, name := "Y", price := 5, quantity := 1 }]
        { id := 1, name := "X", price := 10, quantity := some 3 } =
      [{ id := 2, name := "Y", price := 5, quantity := 1 },
       { id := 1, name := "X", price := 10, quantity := 3 }] := by
  constructor
  · exact (C2_addProduct_merges_by_id.1
      [{ id := 1, name := "X", price := 10, quantity := 2 }]
      { id := 1, name := "X", price := 10, quantity := some 3 }
      { id := 1, name := "X", price := 10, quantity := 2 } (by decide) (by decide)).1
  · have h := C2_addProduct_merges_by_id.2.1
      [{ id := 2, name := "Y", price := 5, quantity := 1 }]
      { id := 1, name := "X", price := 10, quantity := some 3 } (by decide)
    simpa [CartManager.addQty] using h

/-- **C3.** `updateQuantity(productId, q)` with `q ≤ 0` gives the same cart
as `removeProduct`; with `q > 0` it sets the matching line item's quantity
to `q`; it is a no-op when no line item has the identifier; and after a
removal the recomputed item count and total price exclude the removed
item's contribution. -/
theorem C3_updateQuantity_spec :
    ∀ (cart : List CartItem) (productId q : Int),
    (q ≤ 0 →
      CartManager.updateQuantity cart productId q = CartManager.removeProduct cart productId) ∧
    (∀ old, 0 < q → cart.find? (fun it => it.id == productId) = some old →
      (CartManager.updateQuantity cart productId q).find? (fun it => it.id == productId) =
        some { old with quantity := q }) ∧
    ((∀ it ∈ cart, ¬(it.id = productId)) → CartManager.updateQuantity cart productId q = cart) ∧
    (∀ old, (cart.map (fun it => it.id)).Nodup →
      cart.find? (fun it => it.id == productId) = some old → q ≤ 0 →
      CartManager.totalItems (CartManager.updateQuantity cart productId q) =
        CartManager.totalItems cart - old.quantity ∧
      CartManager.totalPrice (CartManager.updateQuantity cart productId q) =
        CartManager.totalPrice cart - old.price * (old.quantity : ℚ)) := by
  intro cart productId q
  have hremove : q ≤ 0 →
      CartManager.updateQuantity cart productId q = CartManager.removeProduct cart productId := by
    intro hq
    unfold CartManager.updateQuantity
    cases hfind : cart.find? (fun item => item.id == productId) with
    | none =>
      have : CartManager.removeProduct cart productId = cart := by
        apply CartManager.removeProduct_of_absent
        intro it hit
        have := List.find?_eq_none.mp hfind it hit
        simpa using this
      rw [this]
    | some old => simp [hq]
  refine ⟨hremove, ?_, ?_, ?_⟩
  · intro old hq hfind
    unfold CartManager.updateQuantity
    rw [hfind]
    simp only [show ¬(q ≤ 0) by omega, if_false]
    exact CartManager.find?_setQtyFirst cart productId q old hfind
  · intro habsent
    unfold CartManager.updateQuantity
    have hfind : cart.find? (fun item => item.id == productId) = none := by
      apply List.find?_eq_none.mpr
      intro it hit
      simpa using habsent it hit
    rw [hfind]
  · intro old hnd hfind hq
    rw [hremove hq]
    exact CartManager.totals_removeProduct cart productId old hnd hfind

/-- Witness for C3 at concrete inputs. -/
theorem C3_witness :
    CartManager.updateQuantity [{ id := 1, name := "X", price := 10, quantity := 2 }] 1 0 =
      CartManager.removeProduct [{ id := 1, name := "X", price := 10, quantity := 2 }] 1 ∧
    (CartManager.updateQuantity [{ id := 1, name := "X", price := 10, quantity := 2 }] 1 7).find?
      (fun it => it.id == (1 : Int)) = some { id := 1, name := "X", price := 10, quantity := 7 } ∧
    CartManager.updateQuantity [{ id := 2, name := "Y", price := 5, quantity := 1 }] 1 3 =
      [{ id := 2, name := "Y", price := 5, quantity := 1 }] ∧
    CartManager.totalItems
      (CartManager.updateQuantity [{ id := 1, name := "X", price := 10, quantity := 2 },
        { id := 2, name := "Y", price := 5, quantity := 1 }] 1 (-1)) =
      CartManager.totalItems [{ id := 1, name := "X", price := 10, quantity := 2 },
        { id := 2, name := "Y", price := 5, quantity := 1 }] - 2 := by
  refine ⟨(C3_updateQuantity_spec _ 1 0).1 (by decide), ?_, ?_, ?_⟩
  · exact (C3_updateQuantity_spec
      [{ id := 1, name := "X", price := 10, quantity := 2 }] 1 7).2.1
      { id := 1, name := "X", price := 10, quantity := 2 } (by decide) (by decide)
  · exact (C3_updateQuantity_spec
      [{ id := 2, name := "Y", price := 5, quantity := 1 }] 1 3).2.2.1 (by decide)
  · exact ((C3_updateQuantity_spec
      [{ id := 1, name := "X", price := 10, quantity := 2 },
       { id := 2, name := "Y", price := 5, quantity := 1 }] 1 (-1)).2.2.2
      { id := 1, name := "X", price := 10, quantity := 2 }
      (by decide) (by decide) (by decide)).1

/-- **C4.** `removeProduct` with an identifier not present leaves the line
items unchanged (and, being a total function, raises no error); with the
identifier present, exactly the line items carrying it are deleted: an
item survives iff it was in the cart with a different id, and the
survivors keep their order. -/
theorem C4_removeProduct_spec :
    ∀ (cart : List CartItem) (productId : Int),
    ((∀ it ∈ cart, ¬(it.id = productId)) → CartManager.removeProduct cart productId = cart) ∧
    (∀ x, x ∈ CartManager.removeProduct cart productId ↔ x ∈ cart ∧ ¬(x.id = productId)) ∧
    List.Sublist (CartManager.removeProduct cart productId) cart := by
  intro cart productId
  refine ⟨CartManager.removeProduct_of_absent cart productId, ?_, List.filter_sublist cart⟩
  intro x
  simp [CartManager.removeProduct, List.mem_filter]

/-- Witness for C4 at a concrete input: removing id 99 from a cart that
never contained it. -/
theorem C4_witness :
    CartManager.removeProduct [{ id := 1, name := "X", price := 10, quantity := 2 }] 99 =
      [{ id := 1, name := "X", price := 10, quantity := 2 }] :=
  (C4_removeProduct_spec [{ id := 1, name := "X", price := 10, quantity := 2 }] 99).1 (by decide)

/-- **C6 counterexample.** The claim's invariant preservation fails for
`addProduct` as stated: the empty cart satisfies the invariant, yet adding
a product whose quantity field is `-3` (a truthy value, so used as is)
produces a line item with quantity `-3 < 1`. -/
theorem C6_counterexample :
    CartManager.CartWF [] ∧
    CartManager.addProduct [] { id := 1, name := "X", price := 10, quantity := some (-3) } =
      [{ id := 1, name := "X", price := 10, quantity := -3 }] ∧
    ¬ CartManager.CartWF [{ id := 1, name := "X", price := 10, quantity := -3 }] := by
  refine ⟨⟨by simp, by simp⟩, by decide, ?_⟩
  intro h
  have := h.2 { id := 1, name := "X", price := 10, quantity := -3 } (by simp)
  exact absurd this (by decide)

/-- **C6 (amended).** Starting from a cart in which each identifier occurs
in at most one line item and every quantity is at least 1:
`removeProduct` and `updateQuantity` preserve the invariant
unconditionally (a quantity driven to 0 or below removes the line item
entirely), and `addProduct` preserves it provided the added product's
quantity field is absent or non-negative (the falsy values `undefined` and
`0` count as quantity 1). -/
theorem C6_invariant_preserved :
    ∀ (cart : List CartItem) (p : Product) (productId q : Int),
    CartManager.CartWF cart →
    ((∀ n, p.quantity = some n → 0 ≤ n) → CartManager.CartWF (CartManager.addProduct cart p)) ∧
    CartManager.CartWF (CartManager.removeProduct cart productId) ∧
    CartManager.CartWF (CartManager.updateQuantity cart productId q) := by
  intro cart p productId q h
  exact ⟨fun hq => CartManager.cartWF_addProduct cart p h
      (CartManager.one_le_addQty p.quantity hq),
    CartManager.cartWF_removeProduct cart productId h,
    CartManager.cartWF_updateQuantity cart productId q h⟩

/-- Witness for the amended C6 at concrete inputs. -/
theorem C6_witness :
    CartManager.CartWF
      (CartManager.addProduct [{ id := 2, name := "Y", price := 5, quantity := 1 }]
        { id := 1, name := "X", price := 10, quantity := some 3 }) ∧
    CartManager.CartWF
      (CartManager.removeProduct [{ id := 2, name := "Y", price := 5, quantity := 1 }] 2) ∧
    CartManager.CartWF
      (CartManager.updateQuantity [{ id := 2, name := "Y", price := 5, quantity := 1 }] 2 4) := by
  have h := C6_invariant_preserved [{ id := 2, name := "Y", price := 5, quantity := 1 }]
    { id := 1, name := "X", price := 10, quantity := some 3 } 2 4 (by constructor <;> decide)
  exact ⟨h.1 (by intro n hn; injection hn with hn; omega), h.2.1, h.2.2⟩

/-- **C10.** A product whose `quantity` field is absent (`undefined`) or
`0` (both falsy) is added with quantity exactly 1: `addProduct` increments
an existing line item by 1, or inserts a new line item with quantity 1. -/
theorem C10_falsy_quantity_adds_one :
    ∀ (cart : List CartItem) (p : Product),
    (p.quantity = none ∨ p.quantity = some 0) →
    CartManager.addQty p.quantity = 1 ∧
    (∀ old, cart.find? (fun it => it.id == p.id) = some old →
      cart.countP (fun it => it.id == p.id) = 1 →
      (CartManager.addProduct cart p).find? (fun it => it.id == p.id) =
        some { old with quantity := old.quantity + 1 }) ∧
    (cart.countP (fun it => it.id == p.id) = 0 →
      CartManager.addProduct cart p =
        cart ++ [{ id := p.id, name := p.name, price := p.price, quantity := 1 }]) := by
  intro cart p hfalsy
  have h1 : CartManager.addQty p.quantity = 1 := by
    rcases hfalsy with h | h <;> simp [CartManager.addQty, h]
  refine ⟨h1, ?_, ?_⟩
  · intro old hfind hcount
    have := (CartManager.addProduct_of_found cart p old hfind hcount).2
    rwa [h1] at this
  · intro hcount
    have := CartManager.addProduct_of_not_found cart p hcount
    rwa [h1] at this

/-- Witness for C10 at concrete inputs. -/
theorem C10_witness :
    CartManager.addQty (some 0) = 1 ∧
    (CartManager.addProduct [{ id := 1, name := "X", price := 10, quantity := 2 }]
        { id := 1, name := "X", price := 10, quantity := none }).find?
      (fun it => it.id == (1 : Int)) =
      some { id := 1, name := "X", price := 10, quantity := 3 } ∧
    CartManager.addProduct [] { id := 1, name := "X", price := 10, quantity := some 0 } =
      [{ id := 1, name := "X", price := 10, quantity := 1 }] := by
  refine ⟨(C10_falsy_quantity_adds_one []
      { id := 1, name := "X", price := 10, quantity := some 0 } (Or.inr rfl)).1, ?_, ?_⟩
  · exact (C10_falsy_quantity_adds_one
      [{ id := 1, name := "X", price := 10, quantity := 2 }]
      { id := 1, name := "X", price := 10, quantity := none } (Or.inl rfl)).2.1
      { id := 1, name := "X", price := 10, quantity := 2 } (by decide) (by decide)
  · exact (C10_falsy_quantity_adds_one []
      { id := 1, name := "X", price := 10, quantity := some 0 } (Or.inr rfl)).2.2 (by decide)

/-! ## Claim C5: persist-then-reconstruct round-trip -/

lemma decodeItem_encodeItem (it : CartItem) : decodeItem (encodeItem it) = some it := by
  simp [decodeItem, encodeItem, Rat.den_intCast, Rat.num_intCast]

lemma decodeItems_map_encodeItem (cart : List CartItem) :
    decodeItems (cart.map encodeItem) = some cart := by
  induction cart with
  | nil => rfl
  | cons it rest ih => simp [decodeItems, decodeItem_encodeItem, ih]

/-- **C5.** Persist-then-reconstruct round-trip: serializing any cart with
`saveCart` and constructing a new store from the stored value succeeds
(the serialized array is truthy, so `|| []` keeps it) and reproduces
exactly the same line items — identifier, name, price and quantity. -/
theorem C5_persist_reconstruct_roundtrip :
    ∀ (cart : List CartItem),
    CartManager.construct (CartManager.saveCart cart) = .ok (encodeCart cart) ∧
    decodeCart (encodeCart cart) = some cart := by
  intro cart
  constructor
  · simp [CartManager.construct, CartManager.saveCart, encodeCart, jsTruthy]
  · simpa [decodeCart, encodeCart] using decodeItems_map_encodeItem cart

/-! ## Claims C7, C8: fragment loading -/

namespace ComponentLoader

lemma find?_map_set (l : List (String × String)) (i h : String) (x : String × String)
    (hf : l.find? (fun e => e.1 == i) = some x) :
    (l.map (fun e => if e.1 == i then (e.1, h) else e)).find? (fun e => e.1 == i) =
      some (x.1, h) := by
  induction l with
  | nil => simp at hf
  | cons e rest ih =>
    by_cases he : (e.1 == i) = true
    · simp only [List.find?_cons, he] at hf
      replace hf : e = x := by injection hf
      subst hf
      have hfe : (if e.1 == i then (e.1, h) else e) = (e.1, h) := by
        simp [he]
      rw [List.map_cons, hfe, List.find?_cons]
      simp [he]
    · have he' : (e.1 == i) = false := by simpa using he
      simp only [List.find?_cons, he'] at hf
      have hfe : (if e.1 == i then (e.1, h) else e) = e := by
        simp [he']
      rw [List.map_cons, hfe, List.find?_cons]
      simp only [he']
      exact ih hf

lemma getElementById_setInnerHTML (d : Doc) (targetId html c : String)
    (h : getElementById d targetId = some c) :
    getElementById (setInnerHTML d targetId html) targetId = some html := by
  unfold getElementById at h ⊢
  cases hx : d.elems.find? (fun e => e.1 == targetId) with
  | none => simp [hx] at h
  | some x =>
    show ((d.elems.map
        (fun e => if e.1 == targetId then (e.1, html) else e)).find?
        (fun e => e.1 == targetId)).map (fun e => e.2) = some html
    rw [find?_map_set d.elems targetId html x hx]
    rfl

lemma getElementById_showComponentFallback (d : Doc) (componentName targetId fb c : String)
    (hfb : fallbacks componentName = some fb) (hc : getElementById d targetId = some c) :
    getElementById (showComponentFallback d componentName targetId) targetId = some fb := by
  unfold showComponentFallback
  rw [hfb, hc]
  exact getElementById_setInnerHTML d targetId fb c hc

lemma showComponentFallback_spec (d : Doc) (componentName targetId : String) :
    (∀ fb c, fallbacks componentName = some fb → getElementById d targetId = some c →
      getElementById (showComponentFallback d componentName targetId) targetId = some fb) ∧
    (fallbacks componentName = none → showComponentFallback d componentName targetId = d) ∧
    (getElementById d targetId = none → showComponentFallback d componentName targetId = d) ∧
    ((getElementById d targetId).isSome →
      (getElementById (showComponentFallback d componentName targetId) targetId).isSome) := by
  refine ⟨fun fb c hfb hc => getElementById_showComponentFallback d componentName targetId
    fb c hfb hc, ?_, ?_, ?_⟩
  · intro hfb
    unfold showComponentFallback
    rw [hfb]
    cases getElementById d targetId <;> rfl
  · intro hc
    unfold showComponentFallback
    rw [hc]
  · intro hsome
    cases hc : getElementById d targetId with
    | none => simp [hc] at hsome
    | some c =>
      cases hfb : fallbacks componentName with
      | none =>
        unfold showComponentFallback
        rw [hfb, hc]
        simp [hc]
      | some fb =>
        rw [getElementById_showComponentFallback d componentName targetId fb c hfb hc]
        rfl

end ComponentLoader

/-- **C7.** Every load failure that reaches the `catch` of `loadComponent`
(a rejected fetch or a non-success HTTP status) logs the error and, when a
static fallback block is defined for the fragment name and the mount
element exists, replaces the mount's contents with that fallback; when no
fallback is defined (or the mount is missing) it leaves the document
as-is with the error surfaced.  A non-success HTTP status never removes a
present mount.  A successful fetch with a missing mount leaves the
document as-is and surfaces a warning. -/
theorem C7_loadComponent_failure_fallback :
    ∀ (d : ComponentLoader.Doc) (componentName targetId : String)
      (fetch : ComponentLoader.FetchResult),
    (fetch.isFailure = true →
      (∀ fb c, ComponentLoader.fallbacks componentName = some fb →
        ComponentLoader.getElementById d targetId = some c →
        ComponentLoader.getElementById
          (ComponentLoader.loadComponent d componentName targetId fetch).1 targetId =
          some fb) ∧
      (ComponentLoader.fallbacks componentName = none →
        ComponentLoader.loadComponent d componentName targetId fetch =
          (d, .loadErrorLogged)) ∧
      (ComponentLoader.getElementById d targetId = none →
        ComponentLoader.loadComponent d componentName targetId fetch =
          (d, .loadErrorLogged)) ∧
      (ComponentLoader.loadComponent d componentName targetId fetch).2 = .loadErrorLogged ∧
      ((ComponentLoader.getElementById d targetId).isSome →
        (ComponentLoader.getElementById
          (ComponentLoader.loadComponent d componentName targetId fetch).1 targetId).isSome)) ∧
    (ComponentLoader.getElementById d targetId = none →
      ∀ html, ComponentLoader.loadComponent d componentName targetId (.success html) =
        (d, .missingTargetWarning)) := by
  intro d componentName targetId fetch
  have hmiss : ComponentLoader.getElementById d targetId = none →
      ∀ html, ComponentLoader.loadComponent d componentName targetId (.success html) =
        (d, .missingTargetWarning) := by
    intro hnone html
    unfold ComponentLoader.loadComponent
    rw [hnone]
  refine ⟨?_, hmiss⟩
  intro hfail
  have hsc := ComponentLoader.showComponentFallback_spec d componentName targetId
  have hload : ComponentLoader.loadComponent d componentName targetId fetch =
      (ComponentLoader.showComponentFallback d componentName targetId, .loadErrorLogged) := by
    cases fetch with
    | success html => simp [ComponentLoader.FetchResult.isFailure] at hfail
    | httpError status => rfl
    | networkError => rfl
  rw [hload]
  exact ⟨fun fb c hfb hc => hsc.1 fb c hfb hc,
    fun hfb => by rw [hsc.2.1 hfb],
    fun hc => by rw [hsc.2.2.1 hc],
    rfl,
    fun hsome => hsc.2.2.2 hsome⟩

/-- Witness for C7 at concrete inputs: a 404 on the header fragment puts
the header fallback markup into the mount; a network error on a fragment
with no fallback entry leaves the document unchanged with the error
logged. -/
theorem C7_witness :
    ComponentLoader.getElementById
      (ComponentLoader.loadComponent ⟨[("header-container", "placeholder")]⟩ "header"
        "header-container" (.httpError 404)).1 "header-container" =
      some ComponentLoader.headerFallbackHtml ∧
    ComponentLoader.loadComponent ⟨[("main-content", "x")]⟩ "main" "main-content"
      .networkError = (⟨[("main-content", "x")]⟩, .loadErrorLogged) := by
  constructor
  · exact ((C7_loadComponent_failure_fallback ⟨[("header-container", "placeholder")]⟩
      "header" "header-container" (.httpError 404)).1 rfl).1
      ComponentLoader.headerFallbackHtml "placeholder" rfl rfl
  · exact ((C7_loadComponent_failure_fallback ⟨[("main-content", "x")]⟩
      "main" "main-content" .networkError).1 rfl).2.1 rfl

/-- **C8.** When loading the head fragment fails, `loadHead` falls back to
`loadDefaultHead`, which appends the fixed default head elements; the
resulting head therefore contains a title element and a viewport meta
element, and is never empty. -/
theorem C8_head_fallback_has_title_viewport :
    ∀ (head : List ComponentLoader.HeadElem),
    ComponentLoader.loadHead head .failure = head ++ ComponentLoader.defaultHeadElems ∧
    (ComponentLoader.loadHead head .failure).any ComponentLoader.HeadElem.isTitle = true ∧
    (ComponentLoader.loadHead head .failure).any
      ComponentLoader.HeadElem.isViewportMeta = true ∧
    ComponentLoader.loadHead head .failure ≠ [] := by
  intro head
  have hdef : ComponentLoader.loadHead head .failure = head ++ ComponentLoader.defaultHeadElems :=
    rfl
  refine ⟨hdef, ?_, ?_, ?_⟩
  · rw [hdef, List.any_append]
    have : ComponentLoader.defaultHeadElems.any ComponentLoader.HeadElem.isTitle = true := by
      decide
    simp [this]
  · rw [hdef, List.any_append]
    have : ComponentLoader.defaultHeadElems.any ComponentLoader.HeadElem.isViewportMeta = true := by
      decide
    simp [this]
  · rw [hdef]
    intro hnil
    have := congrArg List.length hnil
    simp [ComponentLoader.defaultHeadElems] at this

/-! ## Claim C9: PathFixer -/

/-- **C9 counterexample.** The claim states that every hyperlink whose path
is root-relative (starts with `/`) is rewritten.  The hyperlink
`/contact.html` is root-relative and none of the untouched categories
(external, fragment-only, `mailto:`, `tel:`), yet `fixHref` returns it
unchanged at both directory levels: only `/` itself and `/pages/...`
links are rewritten. -/
theorem C9_counterexample :
    PathFixer.jsStartsWith "/contact.html" "/" = true ∧
    PathFixer.jsStartsWith "/contact.html" "http" = false ∧
    PathFixer.jsStartsWith "/contact.html" "#" = false ∧
    PathFixer.jsStartsWith "/contact.html" "mailto:" = false ∧
    PathFixer.jsStartsWith "/contact.html" "tel:" = false ∧
    PathFixer.fixHref true "/contact.html" = "/contact.html" ∧
    PathFixer.fixHref false "/contact.html" = "/contact.html" := by
  decide

/-- **C9 (amended).** The rewriting runs only when the page is opened via
the `file:` protocol.  Under `file:`, every hyperlink and every
stylesheet/script resource URL is passed through the fixed rewrite rule,
which depends on whether the document lives inside the `pages/`
subdirectory: the root link `/` and `/pages/...` hyperlinks are rewritten
to the corresponding relative paths, `./` and `./index.html` are
rewritten from inside `pages/`, and every *other* root-relative hyperlink
is left unchanged; every root-relative resource URL is rewritten by
prefixing `..` (inside `pages/`) or `.` (at the site root).  Absolute
external URLs, fragment-only links and `mailto:`/`tel:` links are left
untouched. -/
theorem C9_pathFixer_amended :
    ∀ (isInPages : Bool) (protocol : String) (links resources : List String) (h u : String),
    ((protocol == "file:") = false →
      PathFixer.run protocol isInPages links resources = (links, resources)) ∧
    (PathFixer.run "file:" isInPages links resources =
      (links.map (PathFixer.fixHref isInPages),
       resources.map (PathFixer.fixResourceUrl isInPages))) ∧
    ((PathFixer.jsStartsWith h "http" || PathFixer.jsStartsWith h "#" ||
        PathFixer.jsStartsWith h "mailto:" || PathFixer.jsStartsWith h "tel:") = true →
      PathFixer.fixHref isInPages h = h) ∧
    (PathFixer.fixHref true "/" = "../index.html" ∧
     PathFixer.fixHref false "/" = "index.html") ∧
    (PathFixer.jsStartsWith h "http" = false → PathFixer.jsStartsWith h "#" = false →
      PathFixer.jsStartsWith h "mailto:" = false → PathFixer.jsStartsWith h "tel:" = false →
      PathFixer.jsStartsWith h "/" = true → (h == "/") = false →
      PathFixer.jsStartsWith h "/pages/" = true →
      PathFixer.fixHref true h = PathFixer.jsSubstring h 6 ∧
      PathFixer.fixHref false h = "pages" ++ PathFixer.jsSubstring h 5) ∧
    (PathFixer.jsStartsWith h "http" = false → PathFixer.jsStartsWith h "#" = false →
      PathFixer.jsStartsWith h "mailto:" = false → PathFixer.jsStartsWith h "tel:" = false →
      PathFixer.jsStartsWith h "/" = true → (h == "/") = false →
      PathFixer.jsStartsWith h "/pages/" = false →
      PathFixer.fixHref isInPages h = h) ∧
    (PathFixer.fixHref true "./" = "../index.html" ∧
     PathFixer.fixHref true "./index.html" = "../index.html" ∧
     PathFixer.fixHref false "./" = "./") ∧
    (PathFixer.jsStartsWith u "/" = true →
      PathFixer.fixResourceUrl true u = ".." ++ u ∧
      PathFixer.fixResourceUrl false u = "." ++ u) ∧
    (PathFixer.jsStartsWith u "/" = false →
      PathFixer.fixResourceUrl isInPages u = u) := by
  intro isInPages protocol links resources h u
  refine ⟨?_, rfl, ?_, by decide, ?_, ?_, by decide, ?_, ?_⟩
  · intro hneq
    simp [PathFixer.run, hneq]
  · intro hor
    simp [PathFixer.fixHref, hor]
  · intro hhttp hhash hmailto htel hslash hne hpages
    constructor <;>
      simp [PathFixer.fixHref, hhttp, hhash, hmailto, htel, hslash, hne, hpages]
  · intro hhttp hhash hmailto htel hslash hne hpages
    simp [PathFixer.fixHref, hhttp, hhash, hmailto, htel, hslash, hne, hpages]
  · intro hslash
    constructor <;> simp [PathFixer.fixResourceUrl, hslash]
  · intro hslash
    simp [PathFixer.fixResourceUrl, hslash]

/-- Witness for the amended C9 at concrete inputs. -/
theorem C9_witness :
    PathFixer.run "https:" true ["/pages/productos.html"] ["/assets/css/main.css"] =
      (["/pages/productos.html"], ["/assets/css/main.css"]) ∧
    PathFixer.fixHref true "mailto:info@sportpro.com" = "mailto:info@sportpro.com" ∧
    PathFixer.fixHref true "/pages/productos.html" =
      PathFixer.jsSubstring "/pages/productos.html" 6 ∧
    PathFixer.fixHref false "/pages/productos.html" =
      "pages" ++ PathFixer.jsSubstring "/pages/productos.html" 5 ∧
    PathFixer.fixHref true "/ofertas.html" = "/ofertas.html" ∧
    PathFixer.fixResourceUrl true "/assets/css/main.css" = ".." ++ "/assets/css/main.css" ∧
    PathFixer.fixResourceUrl false "/assets/css/main.css" = "." ++ "/assets/css/main.css" ∧
    PathFixer.fixResourceUrl true "assets/js/main.js" = "assets/js/main.js" := by
  have hp := C9_pathFixer_amended true "https:" ["/pages/productos.html"]
    ["/assets/css/main.css"] "/pages/productos.html" "/assets/css/main.css"
  have hp2 := C9_pathFixer_amended true "https:" ["/pages/productos.html"]
    ["/assets/css/main.css"] "mailto:info@sportpro.com" "assets/js/main.js"
  have hp3 := C9_pathFixer_amended false "https:" ["/pages/productos.html"]
    ["/assets/css/main.css"] "/pages/productos.html" "/assets/css/main.css"
  have hp4 := C9_pathFixer_amended true "https:" ["/pages/productos.html"]
    ["/assets/css/main.css"] "/ofertas.html" "/assets/css/main.css"
  refine ⟨hp.1 (by decide), hp2.2.2.1 (by decide), ?_, ?_, ?_, ?_, ?_, ?_⟩
  · exact ((hp.2.2.2.2.1 (by decide) (by decide) (by decide) (by decide) (by decide)
      (by decide) (by decide)).1)
  · exact ((hp3.2.2.2.2.1 (by decide) (by decide) (by decide) (by decide) (by decide)
      (by decide) (by decide)).2)
  · exact hp4.2.2.2.2.2.1 (by decide) (by decide) (by decide) (by decide) (by decide)
      (by decide) (by decide)
  · exact (hp.2.2.2.2.2.2.2.1 (by decide)).1
  · exact (hp3.2.2.2.2.2.2.2.1 (by decide)).2
  · exact hp2.2.2.2.2.2.2.2.2 (by decide)
